import Mathlib

/-!
Verification of the Hetzner Rancher node-driver core (resource aggregator in
`src/pkg/hetzner-node-driver/hcloud.ts`, duplicate aggregator variant in
`src/unnamed/part_001`, and the configuration reconciler component in
`src/unnamed/part_000`).

The TypeScript source is shallowly embedded: JS values that can be a string
or a number are modelled by `OValue`; absent/undefined values by `Option`;
JS machine numbers used as resource ids by `Int` (the ids handled by the code
are integers; a JS `NaN` produced by `Number` on a non-numeric string is
modelled as `0`, which agrees with `NaN` at every use site reached by the
claims: both are falsy and neither is ever re-encoded from a valid state).
Async functions become pure functions of their request outcomes; the
pagination `do/while` loop gets an explicit fuel argument, with `none`
returned only when the fuel is exhausted (which theorems rule out).
-/

set_option maxRecDepth 4000

namespace HetznerDriver

instance {ε α : Type} [DecidableEq ε] [DecidableEq α] : DecidableEq (Except ε α) := fun x y =>
  match x, y with
  | .ok a, .ok b => if h : a = b then isTrue (by rw [h]) else isFalse (by simp [h])
  | .error e, .error f => if h : e = f then isTrue (by rw [h]) else isFalse (by simp [h])
  | .ok _, .error _ => isFalse fun hcon => Except.noConfusion hcon
  | .error _, .ok _ => isFalse fun hcon => Except.noConfusion hcon

/-- JS `String.prototype.toUpperCase()` on the character list (the library
`String.toUpper` is not kernel-reducible). -/
def toUpperJs (s : String) : String := String.mk (s.data.map Char.toUpper)

/-- A JS value that is either a string or an (integer) number. -/
inductive OValue where
  | str (s : String)
  | num (n : Int)
deriving DecidableEq, Repr

/-- `HetznerOption` from `hcloud.ts` lines 1–9: one selectable inventory
entry; optional fields are `Option`-valued (absent = `none`). -/
structure HetznerOption where
  label : String
  value : OValue
  city : Option String := none
  country : Option String := none
  networkZone : Option String := none
  disabled : Option Bool := none
  kind : Option String := none
deriving DecidableEq, Repr

/-- One parsed JSON page body as the pagination loop reads it:
`response?.<items>` and `response?.meta?.pagination?.last_page`, each of
which may be absent. -/
structure PageResp (α : Type) where
  items : Option (List α)
  lastPage : Option Nat
deriving DecidableEq, Repr

/-- The accumulation `do/while` loop shared by every fetch operation in
`hcloud.ts` (e.g. `getLocations` lines 29–35):

    let page = 1;
    do { response = await this.request(path + page++);
         acc = acc.concat(response?.items || []); }
    while (response?.items?.length && page <= response?.meta?.pagination?.last_page);

`t p` is the outcome of requesting page `p` (`Except.error` = the request
threw).  `fuel` bounds the number of iterations; `none` means the fuel ran
out before the loop's own exit condition fired (the theorems always supply
enough fuel).  The accumulated items are returned in page order. -/
def continuePaging (r : PageResp α) (page : Nat) : Bool :=
  ((r.items.getD []).length != 0) &&
    (match r.lastPage with | some lp => decide (page + 1 ≤ lp) | none => false)

def paginate (t : Nat → Except Unit (PageResp α)) : Nat → Nat → Option (Except Unit (List α))
  | 0, _ => none
  | fuel + 1, page =>
    match t page with
    | .error e => some (.error e)
    | .ok r =>
      if continuePaging r page then
        match paginate t fuel (page + 1) with
        | none => none
        | some (.error e) => some (.error e)
        | some (.ok rest) => some (.ok (r.items.getD [] ++ rest))
      else
        some (.ok (r.items.getD []))

/-- One HTTP outcome seen by `request` (`hcloud.ts` lines 326–368): either
the fetch itself rejects, or a response arrives with a status code and a
body that may fail to parse as the expected JSON shape (`none`). -/
inductive HttpOutcome (α : Type) where
  | networkError
  | response (status : Nat) (body : Option (PageResp α))

/-- `request` (`hcloud.ts` lines 326–368): a rejected fetch is rethrown; a
non-2xx status throws (a 401 throws with a distinct authentication message,
modelled by the same `Unit` error as every other throw since only the fact
of throwing is observable to the callers); an unparsable body makes
`response.json()` throw.  Otherwise the parsed body is returned. -/
def request : HttpOutcome α → Except Unit (PageResp α)
  | .networkError => .error ()
  | .response status body =>
    if 200 ≤ status ∧ status ≤ 299 then
      match body with
      | some page => .ok page
      | none => .error ()
    else .error ()

/-- One raw location item (`LocationResponse` in `hcloud.ts` lines 21–26). -/
structure LocationResponse where
  name : String
  city : String
  country : String
  network_zone : String
deriving DecidableEq, Repr

/-- `getCountryName` (`hcloud.ts` lines 65–74): static code→name table with
fallback to the raw code. -/
def getCountryName (countryCode : String) : String :=
  if countryCode = "DE" then "Germany"
  else if countryCode = "FI" then "Finland"
  else if countryCode = "US" then "USA"
  else if countryCode = "SG" then "Singapore"
  else if countryCode = "AU" then "Australia"
  else countryCode

/-- Lexicographic strict comparison of char lists by code unit, modelling
the string order that `localeCompare` induces on the ASCII identifiers the
code compares. -/
def lexLtb : List Char → List Char → Bool
  | [], [] => false
  | [], _ :: _ => true
  | _ :: _, [] => false
  | a :: as, b :: bs =>
    if a.toNat < b.toNat then true
    else if b.toNat < a.toNat then false
    else lexLtb as bs

/-- `a` strictly before `b` in the modelled string order. -/
def strLt (a b : String) : Prop := lexLtb a.data b.data = true

/-- `a` sorts no later than `b`: the comparator does not put `b` strictly
first. -/
def strLe (a b : String) : Prop := lexLtb b.data a.data = false

instance : DecidableRel strLt := fun a b => by
  unfold strLt; infer_instance

instance : DecidableRel strLe := fun a b => by
  unfold strLe; infer_instance

/-- The location sort order (`hcloud.ts` lines 42–47): network zone first,
then name.  Models the stable `Array.prototype.sort` comparator built from
`localeCompare`. -/
def locLe (a b : LocationResponse) : Prop :=
  if a.network_zone = b.network_zone then strLe a.name b.name
  else strLt a.network_zone b.network_zone

instance : DecidableRel locLe := fun a b => by
  unfold locLe; infer_instance

/-- The per-kind transform of `getLocations` (`hcloud.ts` lines 41–59):
sort by zone then name, then map to options whose label is
`"<NAME-UPPER> - <city>, <country>"`. -/
def locationOptions (locs : List LocationResponse) : List HetznerOption :=
  (locs.insertionSort locLe).map fun location =>
    let countryName := getCountryName location.country
    { value := .str location.name
      label := toUpperJs location.name ++ " - " ++ location.city ++ ", " ++ countryName
      city := some location.city
      country := some countryName
      networkZone := some location.network_zone }

/-- `getLocations` (`hcloud.ts` lines 20–63): paginate, return `[]` on any
thrown error or when no locations were accumulated, else transform.
`none` = fuel exhausted (model artifact only). -/
def getLocations (t : Nat → Except Unit (PageResp LocationResponse)) (fuel : Nat) :
    Option (List HetznerOption) :=
  match paginate t fuel 1 with
  | none => none
  | some (.error _) => some []
  | some (.ok locations) =>
    if locations.length = 0 then some [] else some (locationOptions locations)

/-- `getLocations` of the duplicate aggregator in `src/unnamed/part_001`
(lines 20–59): a single request with no page parameter and no pagination
loop; `resp` is the outcome of that one request, whose `locations` field may
be missing or not an array (`none`). -/
def getLocationsSingle (resp : Except Unit (Option (List LocationResponse))) :
    List HetznerOption :=
  match resp with
  | .error _ => []
  | .ok none => []
  | .ok (some locations) => locationOptions locations

/-- A well-behaved paginated transport built from a fixed page list: page
`p` answers with the `p`-th item block and `last_page = pages.length`
(the scenario of the pagination claim). -/
def pagesTransport (pages : List (List α)) : Nat → Except Unit (PageResp α) :=
  fun p => .ok { items := some (pages.getD (p - 1) []), lastPage := some pages.length }

/-! ### Decimal numerals

The reconciler converts ids with JS `Number(...)` / `.toString()`.  We model
them by an explicit decimal printer and parser over `Int`. -/

/-- The character of one decimal digit. -/
def digitChar (d : Nat) : Char := Char.ofNat (48 + d)

/-- Little-endian decimal digits of `n`; `fuel ≥ n` suffices. -/
def natDigitsRev : Nat → Nat → List Nat
  | 0, _ => []
  | _, 0 => []
  | fuel + 1, n + 1 => ((n + 1) % 10) :: natDigitsRev fuel ((n + 1) / 10)

/-- JS `Number.prototype.toString()` for a natural number. -/
def natToString (n : Nat) : String :=
  if n = 0 then "0" else String.mk (((natDigitsRev n n).reverse).map digitChar)

/-- JS `Number.prototype.toString()` for an integer. -/
def intToString (n : Int) : String :=
  if n < 0 then "-" ++ natToString n.natAbs else natToString n.natAbs

/-- The digit value of a decimal digit character, `none` otherwise. -/
def charToDigit (c : Char) : Option Nat :=
  if 48 ≤ c.toNat ∧ c.toNat ≤ 57 then some (c.toNat - 48) else none

/-- Parse an unsigned decimal character list; `none` when some character is
not a digit. -/
def parseNatChars (cs : List Char) : Option Nat :=
  (cs.mapM charToDigit).map fun ds => Nat.ofDigits 10 ds.reverse

/-- Parse a JS-style integer numeral.  `none` models `NaN` for strings that
are not plain decimal numerals (the code only ever parses canonical
`toString` output in the scenarios the claims reach; see the header note on
`NaN`).  Like JS `Number`, the empty string parses as `0`. -/
def parseInt (s : String) : Option Int :=
  if s.data.head? = some '-' then (parseNatChars s.data.tail).map fun n => -(n : Int)
  else (parseNatChars s.data).map fun n => (n : Int)

/-- JS `Number(x)` on a string-or-number value, with `NaN` modelled as `0`
(see the header note). -/
def jsNumberOf : OValue → Int
  | .num n => n
  | .str s => (parseInt s).getD 0

/-- JS `x.toString()` on a string-or-number value. -/
def ovToString : OValue → String
  | .str s => s
  | .num n => intToString n

/-! ### Server types -/

/-- One entry of a server type's `prices` array (`hcloud.ts` lines 85–90). -/
structure PriceEntry where
  location : String
  priceMonthlyGross : String
deriving DecidableEq, Repr

/-- One raw server type (`ServerTypeResponse` in `hcloud.ts` lines 77–91).
`cpuType` is the string `"shared"` or `"dedicated"` in real responses, but
the embedding leaves it an arbitrary string exactly as the transform does. -/
structure ServerTypeResponse where
  name : String
  deprecated : Bool
  architecture : String
  cores : Nat
  memory : Nat
  disk : Nat
  cpuType : String
  prices : List PriceEntry
deriving DecidableEq, Repr

/-- `getServerTypes` lines 106–114: drop deprecated entries, then, when the
`location` argument is truthy (present and non-empty), keep only types
priced in that location. -/
def filteredTypes (location : Option String) (ts : List ServerTypeResponse) :
    List ServerTypeResponse :=
  let ts := ts.filter fun t => !t.deprecated
  match location with
  | some l =>
    if l ≠ "" then ts.filter (fun t => t.prices.any fun p => p.location == l) else ts
  | none => ts

/-- The name order used for both CPU classes (`a.name.localeCompare(b.name)`,
modelled as code-unit string order). -/
def typeNameLe (a b : ServerTypeResponse) : Prop := strLe a.name b.name

instance : DecidableRel typeNameLe := fun a b => by
  unfold typeNameLe; infer_instance

/-- `getServerTypes` lines 117–121: the shared-CPU class, sorted by name. -/
def sharedSorted (location : Option String) (ts : List ServerTypeResponse) :
    List ServerTypeResponse :=
  ((filteredTypes location ts).filter fun t => t.cpuType == "shared").insertionSort typeNameLe

/-- `getServerTypes` lines 123–127: the dedicated-CPU class, sorted by name. -/
def dedicatedSorted (location : Option String) (ts : List ServerTypeResponse) :
    List ServerTypeResponse :=
  ((filteredTypes location ts).filter fun t => t.cpuType == "dedicated").insertionSort typeNameLe

/-- The `priceLabel` computed inside `formatServerType` (`hcloud.ts` lines
130–138): empty unless a location was supplied (truthy) and that location's
price entry is found.  `fmt` models the floating-point rendering
`Number(gross).toFixed(2)`, kept abstract because no claim depends on its
output. -/
def priceLabel (location : Option String) (fmt : String → String)
    (t : ServerTypeResponse) : String :=
  match location with
  | some l =>
    if l ≠ "" then
      match t.prices.find? (fun p => p.location == l) with
      | some p => "€" ++ fmt p.priceMonthlyGross ++ "/mo, "
      | none => ""
    else ""
  | none => ""

/-- `formatServerType` (`hcloud.ts` lines 129–143). -/
def formatServerType (location : Option String) (fmt : String → String)
    (t : ServerTypeResponse) : HetznerOption :=
  { value := .str t.name
    label := t.name ++ " (" ++ priceLabel location fmt t ++ t.architecture ++ ", " ++
      natToString t.cores ++ " vCPU, " ++ natToString t.memory ++ " GB RAM, " ++
      natToString t.disk ++ " GB SSD)" }

/-- The dedicated-CPU group header (`hcloud.ts` lines 149–154). -/
def dedicatedHeader : HetznerOption :=
  { label := "━━━ DEDICATED CPU SERVERS ━━━"
    value := .str "dedicated-header"
    disabled := some true
    kind := some "group" }

/-- The shared-CPU group header (`hcloud.ts` lines 161–166). -/
def sharedHeader : HetznerOption :=
  { label := "━━━ SHARED CPU SERVERS ━━━"
    value := .str "shared-header"
    disabled := some true
    kind := some "group" }

/-- The post-accumulation transform of `getServerTypes` (`hcloud.ts` lines
102–171): early `[]` on an empty accumulation, then filter, partition, sort
and emit group headers before each non-empty class (the shared header only
when the dedicated class was also non-empty). -/
def serverTypeOptions (location : Option String) (fmt : String → String)
    (ts : List ServerTypeResponse) : List HetznerOption :=
  if ts.length = 0 then []
  else
    let dedicatedTypes := dedicatedSorted location ts
    let sharedTypes := sharedSorted location ts
    (if dedicatedTypes.length > 0 then
      dedicatedHeader :: dedicatedTypes.map (formatServerType location fmt)
    else []) ++
    (if sharedTypes.length > 0 then
      (if dedicatedTypes.length > 0 then [sharedHeader] else []) ++
        sharedTypes.map (formatServerType location fmt)
    else [])

/-- `getServerTypes` (`hcloud.ts` lines 76–175): paginate over
`/server_types`, return `[]` on any thrown error, else transform. -/
def getServerTypes (t : Nat → Except Unit (PageResp ServerTypeResponse)) (fuel : Nat)
    (location : Option String) (fmt : String → String) : Option (List HetznerOption) :=
  match paginate t fuel 1 with
  | none => none
  | some (.error _) => some []
  | some (.ok serverTypes) => some (serverTypeOptions location fmt serverTypes)

/-! ### The configuration reconciler (`src/unnamed/part_000`)

The internal `ServerConfiguration` (lines 20–38) and the loosely-typed
external record `props.value` are embedded as records of `Option`-valued
fields; a JS label record becomes an association list in insertion order. -/

/-- The internal `ServerConfiguration` interface (`part_000` lines 20–38);
every field is optional in the source. -/
structure ServerConfiguration where
  disablePublicNetwork : Option Bool
  disablePublicIpv4 : Option Bool
  disablePublicIpv6 : Option Bool
  usePrivateNetwork : Option Bool
  sshKeyId : Option Int
  firewallIds : Option (List Int)
  networkIds : Option (List Int)
  placementGroupId : Option Int
  serverImage : Option Int
  serverType : Option String
  serverLocation : Option String
  additionalUserData : Option String
  serverLabels : Option (List (String × String))
deriving DecidableEq, Repr

/-- The external configuration record `props.value`, restricted to the
fields the component reads and writes (`part_000` lines 97–134 and
148–196).  Id fields may arrive as strings or numbers. -/
structure ExternalRecord where
  serverType : Option OValue
  serverLocation : Option OValue
  imageId : Option OValue
  placementGroup : Option OValue
  networks : Option (List OValue)
  firewalls : Option (List OValue)
  existingKeyId : Option OValue
  usePrivateNetwork : Option Bool
  disablePublic : Option Bool
  disablePublicIpv4 : Option Bool
  disablePublicIpv6 : Option Bool
  additionalUserData : Option String
  userDataFromFile : Option Bool
  serverLabel : Option (List String)
deriving DecidableEq, Repr

/-- JS truthiness of a possibly-undefined boolean. -/
def truthyBool : Option Bool → Bool
  | none => false
  | some b => b

/-- JS truthiness of a possibly-undefined string (`""` is falsy). -/
def truthyStr : Option String → Bool
  | none => false
  | some s => s != ""

/-- JS truthiness of a possibly-undefined number (`0` is falsy; so is `NaN`,
which the model folds into `0`). -/
def truthyInt : Option Int → Bool
  | none => false
  | some n => n != 0

/-- JS truthiness of `xs?.length` for a possibly-undefined array. -/
def truthyLen {α : Type} : Option (List α) → Bool
  | none => false
  | some l => l.length != 0

/-- The validation watcher body (`part_000` lines 204–233): start from
`valid = true` and clear it on each of the three failing conditions, in
source order. -/
def isValidConfig (c : ServerConfiguration) : Bool :=
  let valid := true
  let valid :=
    if !truthyInt c.serverImage || !truthyStr c.serverType || !truthyStr c.serverLocation then
      false
    else valid
  let valid :=
    if (truthyBool c.disablePublicNetwork || truthyBool c.disablePublicIpv4 ||
        truthyBool c.disablePublicIpv6) && !truthyBool c.usePrivateNetwork then
      false
    else valid
  let valid :=
    if truthyBool c.usePrivateNetwork && !truthyLen c.networkIds then false else valid
  valid

/-- The body of `updateValue` after the validity guard (`part_000` lines
96–134): re-encode every internal field into the external record.  All
fourteen fields are written, so the result does not depend on the previous
external record. -/
def encodeConfig (c : ServerConfiguration) : ExternalRecord :=
  { serverType := c.serverType.map .str
    serverLocation := c.serverLocation.map .str
    imageId := c.serverImage.map fun n => .str (intToString n)
    placementGroup := c.placementGroupId.map fun n => .str (intToString n)
    networks := some ((c.networkIds.getD []).map fun n => .str (intToString n))
    firewalls := some ((c.firewallIds.getD []).map fun n => .str (intToString n))
    existingKeyId := c.sshKeyId.map fun n => .str (intToString n)
    usePrivateNetwork := c.usePrivateNetwork
    disablePublic :=
      if truthyBool c.disablePublicNetwork then some true else some false
    disablePublicIpv4 :=
      if truthyBool c.disablePublicNetwork then some false else c.disablePublicIpv4
    disablePublicIpv6 :=
      if truthyBool c.disablePublicNetwork then some false else c.disablePublicIpv6
    additionalUserData := c.additionalUserData
    userDataFromFile := some true
    serverLabel :=
      some (match c.serverLabels with
        | some m => m.map fun kv => kv.1 ++ "=" ++ kv.2
        | none => []) }

/-- `updateValue` (`part_000` lines 93–139): write the encoding only when
the current validity flag is set, else leave the external record alone. -/
def updateValue (valid : Bool) (c : ServerConfiguration) (ext : ExternalRecord) :
    ExternalRecord :=
  if valid then encodeConfig c else ext

/-- JS `String.prototype.split(sep)` for a single-character separator, on
the character list of the string.  `"".split(sep)` is `[""]`. -/
def splitCharsOn (sep : Char) : List Char → List (List Char)
  | [] => [[]]
  | a :: rest =>
    match splitCharsOn sep rest with
    | [] => [[a]]
    | grp :: grps =>
      if a = sep then [] :: grp :: grps else (a :: grp) :: grps

/-- The label decode of the inbound watcher (`part_000` lines 194–196):
`label.split('=')` feeding `Object.fromEntries`, which uses parts 0 and 1 of
the split and ignores the rest.  A label without `=` gets the JS value
`undefined`, modelled as `""` (no claim reaches that corner: outbound always
emits a `=`). -/
def splitLabel (s : String) : String × String :=
  match (splitCharsOn '=' s.data).map String.mk with
  | [] => ("", "")
  | [k] => (k, "")
  | k :: v :: _ => (k, v)

/-- JS object insertion: overwrite the value in place if the key exists,
else append. -/
def insertEntry : List (String × String) → String → String → List (String × String)
  | [], k, v => [(k, v)]
  | (k', v') :: rest, k, v =>
    if k' = k then (k', v) :: rest else (k', v') :: insertEntry rest k v

/-- JS `Object.fromEntries`, keeping insertion order and letting later
duplicate keys overwrite earlier values. -/
def objectFromEntries (l : List (String × String)) : List (String × String) :=
  l.foldl (fun acc kv => insertEntry acc kv.1 kv.2) []

/-- The inbound sync body (`part_000` lines 146–196): re-derive every
internal field from the external record. -/
def deriveConfig (ext : ExternalRecord) : ServerConfiguration :=
  { serverType := ext.serverType.map ovToString
    serverLocation := ext.serverLocation.map ovToString
    serverImage := ext.imageId.map jsNumberOf
    placementGroupId := ext.placementGroup.map jsNumberOf
    networkIds := some ((ext.networks.getD []).map jsNumberOf)
    firewallIds := some ((ext.firewalls.getD []).map jsNumberOf)
    sshKeyId := ext.existingKeyId.map jsNumberOf
    usePrivateNetwork := ext.usePrivateNetwork
    disablePublicNetwork := ext.disablePublic
    disablePublicIpv4 := ext.disablePublicIpv4
    disablePublicIpv6 := ext.disablePublicIpv6
    additionalUserData := some (ext.additionalUserData.getD "")
    serverLabels := some (objectFromEntries ((ext.serverLabel.getD []).map splitLabel)) }

/-! ### The watcher state machine

`part_000` keeps two guard flags (`syncingToProps`, `syncingFromProps`,
lines 88–89).  Vue's pre-flush scheduling runs the `serverConfiguration`
watcher triggered by an inbound mutation before the `await nextTick()` that
clears `syncingFromProps`, and runs the `props.value` watcher triggered by
an outbound write before the `await nextTick()` that clears
`syncingToProps`; the step functions below compose the handler bodies in
that order. -/

/-- The mutable component state the three watchers touch. -/
structure ComponentState where
  config : ServerConfiguration
  extRecord : ExternalRecord
  isValid : Bool
  syncingFromProps : Bool
  syncingToProps : Bool
deriving DecidableEq, Repr

/-- The `props.value` watcher body alone (`part_000` lines 143–199), without
the watchers it triggers: bail out while an outbound write is in flight,
else derive the internal state under the `syncingFromProps` flag (cleared
here at its trailing `nextTick`, with the triggered validation run modelled
separately in `inboundSyncRun`). -/
def inboundBody (newExt : ExternalRecord) (st : ComponentState) : ComponentState :=
  if st.syncingToProps then { st with extRecord := newExt }
  else { st with extRecord := newExt, config := deriveConfig newExt, syncingFromProps := false }

/-- `updateValue` as a state step (`part_000` lines 93–139): when the
validity flag is set, raise `syncingToProps` and write the encoding of the
internal state to the external record (the flag is cleared again at the
function's trailing `nextTick`; it is left raised here so that the echo
suppression it provides is visible to `inboundBody`). -/
def updateValueBody (st : ComponentState) : ComponentState :=
  if st.isValid then
    { st with syncingToProps := true, extRecord := encodeConfig st.config }
  else st

/-- The `serverConfiguration` watcher body (`part_000` lines 206–231):
recompute validity, publish it, and run the outbound sync only when valid
and no inbound sync is in flight. -/
def validationRun (st : ComponentState) : ComponentState :=
  let valid := isValidConfig st.config
  let st1 := { st with isValid := valid }
  if valid && !st1.syncingFromProps then updateValueBody st1 else st1

/-- One complete inbound sync transaction for an external change to
`props.value` (lines 141–202): the guard check, the field derivation under
`syncingFromProps = true`, the validation watcher that the mutation
triggers (still inside the flag window, per Vue's pre-flush order), and the
clearing of the flag at `nextTick`. -/
def inboundSyncRun (newExt : ExternalRecord) (st : ComponentState) : ComponentState :=
  let st0 := { st with extRecord := newExt }
  if st0.syncingToProps then st0
  else
    let st1 := { st0 with syncingFromProps := true, config := deriveConfig newExt }
    let st2 := validationRun st1
    { st2 with syncingFromProps := false }

/-- The strict equality `type.value === serverConfiguration.serverType`
(`part_000` line 247): an option value (string or number) against the
possibly-undefined selected type; `===` against `undefined` or across
types is false. -/
def valueEqSelected (v : OValue) (sel : Option String) : Bool :=
  match v, sel with
  | .str s, some t => s == t
  | _, _ => false

/-- The location-change watcher (`part_000` lines 235–263) after a
successful refetch: install `newTypes` as the instance-type catalog and
clear the selected type unless its value still occurs in `newTypes`. -/
def locationChangeApply (newTypes : List HetznerOption) (sel : Option String) :
    Option String :=
  if newTypes.any (fun o => valueEqSelected o.value sel) then sel else none

/-- The same watcher composed with the aggregator refetch
(`getServerTypes(newLocation)` on line 241, modelled post-accumulation):
the refreshed catalog is the server-type transform filtered by the new
location. -/
def locationChangeStep (types : List ServerTypeResponse) (newLocation : Option String)
    (fmt : String → String) (sel : Option String) : Option String :=
  locationChangeApply (serverTypeOptions newLocation fmt types) sel

/-- The validity condition exactly as claim C3 words it, read literally:
the three id fields are "set" when they are present (`isSome`), a
disable flag is "set" when it is `true`, and the network id list (empty
when absent) must be non-empty whenever use-private-network is set.  This
definition follows the claim's words, for comparison against
`isValidConfig`, which is translated from the source. -/
def specValidLiteral (c : ServerConfiguration) : Bool :=
  (c.serverType.isSome && c.serverImage.isSome && c.serverLocation.isSome) &&
  (!(truthyBool c.disablePublicNetwork || truthyBool c.disablePublicIpv4 ||
      truthyBool c.disablePublicIpv6) || truthyBool c.usePrivateNetwork) &&
  (!truthyBool c.usePrivateNetwork || ((c.networkIds.getD []).length != 0))

/-! ### Concrete sample values used by witnesses -/

/-- A valid configuration with `disablePublicNetwork` set. -/
def sampleValidDP : ServerConfiguration :=
  ⟨some true, some true, some true, some true, none, some [], some [1], none,
    some 7, some "cx22", some "fsn1", none, some []⟩

/-- A valid configuration with all disable flags off. -/
def sampleValidNoDP : ServerConfiguration :=
  ⟨some false, none, none, some false, some 5, some [2, 3], some [], none,
    some 42, some "cx22", some "fsn1", some "", some [("env", "prod")]⟩

/-- An external record with every field absent. -/
def sampleExt : ExternalRecord :=
  ⟨none, none, none, none, none, none, none, none, none, none, none, none, none, none⟩

/-- A quiescent component state (no sync in flight). -/
def sampleState : ComponentState := ⟨sampleValidNoDP, sampleExt, false, false, false⟩

/-! ### Supporting lemmas -/

theorem lexLtb_nil_right : ∀ cs : List Char, lexLtb cs [] = false := by
  intro cs
  cases cs <;> rfl

theorem lexLtb_asymm : ∀ as bs : List Char, lexLtb as bs = true → lexLtb bs as = false := by
  intro as
  induction as with
  | nil => intro bs _; exact lexLtb_nil_right bs
  | cons a as' ih =>
    intro bs hab
    cases bs with
    | nil => simp [lexLtb] at hab
    | cons b bs' =>
      simp only [lexLtb] at hab ⊢
      by_cases h1 : a.toNat < b.toNat
      · simp only [h1, if_true] at hab
        have h2 : ¬b.toNat < a.toNat := by omega
        simp [h1, h2]
      · by_cases h2 : b.toNat < a.toNat
        · simp [h1, h2] at hab
        · simp only [h1, h2, if_false] at hab
          simp [h1, h2, ih bs' hab]

theorem lexLtb_total : ∀ as bs : List Char,
    lexLtb as bs = false ∨ lexLtb bs as = false := by
  intro as bs
  by_cases h : lexLtb as bs = true
  · exact Or.inr (lexLtb_asymm as bs h)
  · exact Or.inl (Bool.eq_false_iff.mpr h)

theorem lexLtb_le_trans : ∀ as bs cs : List Char,
    lexLtb bs as = false → lexLtb cs bs = false → lexLtb cs as = false := by
  intro as
  induction as with
  | nil => intro bs cs _ _; exact lexLtb_nil_right cs
  | cons a as' ih =>
    intro bs cs hba hcb
    cases bs with
    | nil => simp [lexLtb] at hba
    | cons b bs' =>
      cases cs with
      | nil => simp [lexLtb] at hcb
      | cons c cs' =>
        simp only [lexLtb] at hba hcb ⊢
        by_cases h1 : b.toNat < a.toNat
        · simp [h1] at hba
        · by_cases h2 : c.toNat < b.toNat
          · simp [h2] at hcb
          · have hca : ¬c.toNat < a.toNat := by omega
            by_cases h3 : a.toNat < c.toNat
            · simp [hca, h3]
            · have hab : ¬a.toNat < b.toNat := by omega
              have hbc : ¬b.toNat < c.toNat := by omega
              simp only [h1, hab, if_false] at hba
              simp only [h2, hbc, if_false] at hcb
              simp [hca, h3, ih bs' cs' hba hcb]

instance : IsTotal ServerTypeResponse typeNameLe :=
  ⟨fun a b => lexLtb_total b.name.data a.name.data⟩

instance : IsTrans ServerTypeResponse typeNameLe :=
  ⟨fun _ _ _ hab hbc => lexLtb_le_trans _ _ _ hab hbc⟩

theorem natDigitsRev_lt_ten : ∀ fuel n, ∀ d ∈ natDigitsRev fuel n, d < 10 := by
  intro fuel
  induction fuel with
  | zero => intro n d hd; simp [natDigitsRev] at hd
  | succ f ih =>
    intro n d hd
    match n with
    | 0 => simp [natDigitsRev] at hd
    | m + 1 =>
      simp only [natDigitsRev, List.mem_cons] at hd
      rcases hd with h | h
      · subst h; exact Nat.mod_lt _ (by norm_num)
      · exact ih _ _ h

theorem ofDigits_natDigitsRev : ∀ fuel n, n ≤ fuel →
    Nat.ofDigits 10 (natDigitsRev fuel n) = n := by
  intro fuel
  induction fuel with
  | zero =>
    intro n hn
    interval_cases n
    simp [natDigitsRev, Nat.ofDigits]
  | succ f ih =>
    intro n hn
    match n with
    | 0 => simp [natDigitsRev, Nat.ofDigits]
    | m + 1 =>
      have hdiv : (m + 1) / 10 ≤ f := by
        have h1 : (m + 1) / 10 < m + 1 := Nat.div_lt_self (Nat.succ_pos m) (by norm_num)
        omega
      simp only [natDigitsRev, Nat.ofDigits_cons, ih _ hdiv]
      omega

theorem natDigitsRev_ne_nil (fuel n : Nat) (hn : n ≠ 0) (hfuel : 1 ≤ fuel) :
    natDigitsRev fuel n ≠ [] := by
  match fuel, n with
  | f + 1, m + 1 => simp [natDigitsRev]

theorem charToDigit_digitChar : ∀ d, d < 10 → charToDigit (digitChar d) = some d := by
  decide

theorem mapM_charToDigit_digitChar : ∀ ds : List Nat, (∀ d ∈ ds, d < 10) →
    (ds.map digitChar).mapM charToDigit = some ds := by
  intro ds
  induction ds with
  | nil => intro _; rfl
  | cons d rest ih =>
    intro h
    have hd : charToDigit (digitChar d) = some d :=
      charToDigit_digitChar d (h d (List.mem_cons_self d rest))
    have hrest := ih fun x hx => h x (List.mem_cons_of_mem _ hx)
    simp only [List.map_cons, List.mapM_cons, hd, hrest, Option.pure_def, Option.bind_some]
    rfl

theorem parseNatChars_natToString (m : Nat) : parseNatChars (natToString m).data = some m := by
  by_cases h0 : m = 0
  · subst h0; decide
  · have hdata : (natToString m).data = (natDigitsRev m m).reverse.map digitChar := by
      simp [natToString, h0]
    rw [hdata]
    unfold parseNatChars
    rw [mapM_charToDigit_digitChar _ fun d hd =>
      natDigitsRev_lt_ten m m d (List.mem_reverse.mp hd)]
    simp [ofDigits_natDigitsRev m m le_rfl]

theorem natToString_head_digit (m : Nat) :
    ∃ d rest, d < 10 ∧ (natToString m).data = digitChar d :: rest := by
  by_cases h0 : m = 0
  · exact ⟨0, [], by norm_num, by subst h0; rfl⟩
  · have hdata : (natToString m).data = (natDigitsRev m m).reverse.map digitChar := by
      simp [natToString, h0]
    have hne : (natDigitsRev m m).reverse ≠ [] := by
      simp only [ne_eq, List.reverse_eq_nil_iff]
      exact natDigitsRev_ne_nil m m h0 (by omega)
    match hrev : (natDigitsRev m m).reverse with
    | [] => exact absurd hrev hne
    | d :: rest =>
      refine ⟨d, rest.map digitChar, ?_, by rw [hdata, hrev]; rfl⟩
      exact natDigitsRev_lt_ten m m d (List.mem_reverse.mp (hrev ▸ List.mem_cons_self d rest))

theorem digitChar_ne_dash : ∀ d, d < 10 → digitChar d ≠ '-' := by decide

theorem parseInt_natToString (m : Nat) : parseInt (natToString m) = some (m : Int) := by
  obtain ⟨d, rest, hd, hdata⟩ := natToString_head_digit m
  have hhead : (natToString m).data.head? ≠ some '-' := by
    rw [hdata]
    simp [digitChar_ne_dash d hd]
  rw [parseInt, if_neg hhead, parseNatChars_natToString]
  rfl

theorem parseInt_intToString (n : Int) : parseInt (intToString n) = some n := by
  by_cases hneg : n < 0
  · have h1 : intToString n = "-" ++ natToString n.natAbs := by simp [intToString, hneg]
    have hdata : (intToString n).data = '-' :: (natToString n.natAbs).data := by
      rw [h1]
      simp [String.data_append]
    have habs : ((n.natAbs : Int)) = -n := by
      rcases Int.natAbs_eq n with h | h <;> omega
    simp [parseInt, hdata, parseNatChars_natToString, habs]
  · have habs : ((n.natAbs : Int)) = n := by
      rcases Int.natAbs_eq n with h | h <;> omega
    have h1 : intToString n = natToString n.natAbs := by simp [intToString, hneg]
    rw [h1, parseInt_natToString, habs]

theorem jsNumberOf_roundtrip (n : Int) : jsNumberOf (.str (intToString n)) = n := by
  simp [jsNumberOf, parseInt_intToString]

theorem ovToString_str (s : String) : ovToString (.str s) = s := rfl

theorem splitCharsOn_ne_nil (sep : Char) : ∀ cs, splitCharsOn sep cs ≠ [] := by
  intro cs
  cases cs with
  | nil => simp [splitCharsOn]
  | cons a rest =>
    simp only [splitCharsOn]
    rcases h : splitCharsOn sep rest with _ | ⟨grp, grps⟩ <;> by_cases ha : a = sep <;>
      simp [h, ha]

theorem splitCharsOn_sep_free (sep : Char) : ∀ cs, sep ∉ cs → splitCharsOn sep cs = [cs] := by
  intro cs
  induction cs with
  | nil => intro _; rfl
  | cons a rest ih =>
    intro h
    have ha : a ≠ sep := fun heq => h (heq ▸ List.mem_cons_self a rest)
    have hrest : splitCharsOn sep rest = [rest] :=
      ih fun hm => h (List.mem_cons_of_mem _ hm)
    simp [splitCharsOn, hrest, ha]

theorem splitCharsOn_append (sep : Char) : ∀ kc vc : List Char, sep ∉ kc →
    splitCharsOn sep (kc ++ sep :: vc) = kc :: splitCharsOn sep vc := by
  intro kc
  induction kc with
  | nil =>
    intro vc _
    simp only [List.nil_append, splitCharsOn]
    rcases h : splitCharsOn sep vc with _ | ⟨grp, grps⟩
    · exact absurd h (splitCharsOn_ne_nil sep vc)
    · simp [h]
  | cons a kc' ih =>
    intro vc h
    have ha : a ≠ sep := fun heq => h (heq ▸ List.mem_cons_self a kc')
    have hrec := ih vc fun hm => h (List.mem_cons_of_mem _ hm)
    have heq : splitCharsOn sep (a :: (kc' ++ sep :: vc)) =
        match splitCharsOn sep (kc' ++ sep :: vc) with
        | [] => [[a]]
        | grp :: grps => if a = sep then [] :: grp :: grps else (a :: grp) :: grps := rfl
    rw [List.cons_append, heq, hrec]
    simp [ha]

theorem splitLabel_encode (k v : String) (hk : '=' ∉ k.data) (hv : '=' ∉ v.data) :
    splitLabel (k ++ "=" ++ v) = (k, v) := by
  have hdata : (k ++ "=" ++ v).data = k.data ++ '=' :: v.data := by
    simp [String.data_append]
  rw [splitLabel, hdata, splitCharsOn_append _ _ _ hk, splitCharsOn_sep_free _ _ hv]
  rfl

theorem insertEntry_not_mem (k : String) (v : String) :
    ∀ acc : List (String × String), k ∉ acc.map Prod.fst →
      insertEntry acc k v = acc ++ [(k, v)] := by
  intro acc
  induction acc with
  | nil => intro _; rfl
  | cons kv rest ih =>
    intro h
    simp only [List.map_cons, List.mem_cons] at h
    push_neg at h
    simp [insertEntry, Ne.symm h.1, ih h.2]

theorem foldl_insertEntry (l : List (String × String)) :
    ∀ acc : List (String × String), (acc.map Prod.fst ++ l.map Prod.fst).Nodup →
      l.foldl (fun a kv => insertEntry a kv.1 kv.2) acc = acc ++ l := by
  induction l with
  | nil => intro acc _; simp
  | cons kv rest ih =>
    intro acc h
    have hk : kv.1 ∉ acc.map Prod.fst := by
      intro hm
      rcases List.nodup_append.mp h with ⟨_, _, hdisj⟩
      exact hdisj hm (by simp)
    have hstep : insertEntry acc kv.1 kv.2 = acc ++ [(kv.1, kv.2)] :=
      insertEntry_not_mem _ _ _ hk
    have hnodup : ((acc ++ [(kv.1, kv.2)]).map Prod.fst ++ rest.map Prod.fst).Nodup := by
      simp only [List.map_append, List.map_cons, List.map_nil, List.append_assoc,
        List.singleton_append]
      simpa using h
    calc (kv :: rest).foldl (fun a p => insertEntry a p.1 p.2) acc
        = rest.foldl (fun a p => insertEntry a p.1 p.2) (acc ++ [(kv.1, kv.2)]) := by
          simp [List.foldl_cons, hstep]
      _ = acc ++ [(kv.1, kv.2)] ++ rest := ih _ hnodup
      _ = acc ++ kv :: rest := by simp

theorem objectFromEntries_nodup (l : List (String × String))
    (h : (l.map Prod.fst).Nodup) : objectFromEntries l = l := by
  have := foldl_insertEntry l [] (by simpa using h)
  simpa [objectFromEntries] using this

theorem paginate_pagesTransport {α : Type} (pages : List (List α))
    (hne : ∀ pg ∈ pages, pg ≠ []) :
    ∀ fuel i, i < pages.length → pages.length - i ≤ fuel →
      paginate (pagesTransport pages) fuel (i + 1) = some (.ok ((pages.drop i).flatten)) := by
  intro fuel
  induction fuel with
  | zero => intro i hi hf; omega
  | succ f ih =>
    intro i hi hf
    have hresp : pagesTransport pages (i + 1) =
        .ok { items := some pages[i], lastPage := some pages.length } := by
      simp [pagesTransport, List.getD_eq_getElem pages [] hi, List.getElem?_eq_getElem hi]
    have hnil : pages[i] ≠ [] := hne _ (pages.getElem_mem hi)
    have hlenne : (pages[i].length != 0) = true := by
      simpa [bne_iff_ne, ne_eq, List.length_eq_zero] using hnil
    have hdrop : pages.drop i = pages[i] :: pages.drop (i + 1) :=
      List.drop_eq_getElem_cons hi
    by_cases hlt : i + 1 < pages.length
    · have hcond : continuePaging
          ({ items := some pages[i], lastPage := some pages.length } : PageResp α)
          (i + 1) = true := by
        simp only [continuePaging, Option.getD_some, Bool.and_eq_true, hlenne,
          true_and, decide_eq_true_eq]
        omega
      have hrec := ih (i + 1) hlt (by omega)
      simp only [paginate, hresp, hcond, if_true, hrec, Option.getD_some, hdrop,
        List.flatten_cons]
    · have hdec : (decide (i + 1 + 1 ≤ pages.length)) = false := by
        simp only [decide_eq_false_iff_not]
        omega
      have hcond : continuePaging
          ({ items := some pages[i], lastPage := some pages.length } : PageResp α)
          (i + 1) = false := by
        simp [continuePaging, hdec]
      have hdropi : pages.drop (i + 1) = [] := List.drop_eq_nil_of_le (by omega)
      simp only [paginate, hresp, hcond, Bool.false_eq_true, if_false, Option.getD_some,
        hdrop, hdropi, List.flatten_cons, List.flatten_nil, List.append_nil]

theorem optStr_roundtrip (o : Option String) : o.map (ovToString ∘ OValue.str) = o := by
  cases o <;> rfl

theorem optNum_roundtrip (o : Option Int) :
    o.map (jsNumberOf ∘ fun n => OValue.str (intToString n)) = o := by
  cases o <;> simp [Function.comp, jsNumberOf_roundtrip]

theorem listNum_roundtrip (l : List Int) :
    l.map (jsNumberOf ∘ fun n => OValue.str (intToString n)) = l := by
  have h : ∀ n ∈ l, (jsNumberOf ∘ fun n => OValue.str (intToString n)) n = id n := by
    intro n _
    simp [Function.comp, jsNumberOf_roundtrip]
  rw [List.map_congr_left h, List.map_id]

theorem labels_roundtrip (m : List (String × String))
    (hkeys : (m.map Prod.fst).Nodup)
    (hchars : ∀ kv ∈ m, '=' ∉ kv.1.data ∧ '=' ∉ kv.2.data) :
    objectFromEntries (m.map (splitLabel ∘ fun kv => kv.1 ++ "=" ++ kv.2)) = m := by
  have h : ∀ kv ∈ m, (splitLabel ∘ fun kv => kv.1 ++ "=" ++ kv.2) kv = id kv := by
    intro kv hkv
    obtain ⟨hk, hv⟩ := hchars kv hkv
    simp [Function.comp, splitLabel_encode kv.1 kv.2 hk hv]
  rw [List.map_congr_left h, List.map_id]
  exact objectFromEntries_nodup m hkeys

theorem mem_dedicatedSorted {loc : Option String} {ts : List ServerTypeResponse}
    {t : ServerTypeResponse} :
    t ∈ dedicatedSorted loc ts ↔
      t ∈ filteredTypes loc ts ∧ (t.cpuType == "dedicated") = true := by
  unfold dedicatedSorted
  rw [(List.perm_insertionSort typeNameLe _).mem_iff, List.mem_filter]

theorem mem_sharedSorted {loc : Option String} {ts : List ServerTypeResponse}
    {t : ServerTypeResponse} :
    t ∈ sharedSorted loc ts ↔
      t ∈ filteredTypes loc ts ∧ (t.cpuType == "shared") = true := by
  unfold sharedSorted
  rw [(List.perm_insertionSort typeNameLe _).mem_iff, List.mem_filter]

theorem dedicatedSorted_nil (loc : Option String) : dedicatedSorted loc [] = [] := by
  cases loc <;> simp [dedicatedSorted, filteredTypes]

theorem sharedSorted_nil (loc : Option String) : sharedSorted loc [] = [] := by
  cases loc <;> simp [sharedSorted, filteredTypes]

theorem mem_serverTypeOptions {o : HetznerOption} {loc : Option String}
    {fmt : String → String} {ts : List ServerTypeResponse} :
    o ∈ serverTypeOptions loc fmt ts ↔
      ((o = dedicatedHeader ∧ dedicatedSorted loc ts ≠ []) ∨
       (∃ t ∈ dedicatedSorted loc ts, formatServerType loc fmt t = o) ∨
       (o = sharedHeader ∧ dedicatedSorted loc ts ≠ [] ∧ sharedSorted loc ts ≠ []) ∨
       (∃ t ∈ sharedSorted loc ts, formatServerType loc fmt t = o)) := by
  by_cases hts : ts.length = 0
  · have hts' : ts = [] := List.length_eq_zero.mp hts
    subst hts'
    simp [serverTypeOptions, dedicatedSorted_nil, sharedSorted_nil]
  · simp only [serverTypeOptions, if_neg hts]
    by_cases hd : (dedicatedSorted loc ts).length > 0
    · have hD : dedicatedSorted loc ts ≠ [] := List.length_pos.mp hd
      by_cases hs : (sharedSorted loc ts).length > 0
      · have hS : sharedSorted loc ts ≠ [] := List.length_pos.mp hs
        simp [if_pos hd, if_pos hs, hD, hS, List.mem_append, or_assoc]
      · have hS : sharedSorted loc ts = [] := List.length_eq_zero.mp (by omega)
        simp [if_pos hd, if_neg hs, hD, hS, List.mem_append, or_assoc]
    · have hD : dedicatedSorted loc ts = [] := List.length_eq_zero.mp (by omega)
      by_cases hs : (sharedSorted loc ts).length > 0
      · have hS : sharedSorted loc ts ≠ [] := List.length_pos.mp hs
        simp [if_neg hd, if_pos hs, hD, hS, List.mem_append]
      · have hS : sharedSorted loc ts = [] := List.length_eq_zero.mp (by omega)
        simp [if_neg hd, if_neg hs, hD, hS]

theorem formatServerType_kind (loc : Option String) (fmt : String → String)
    (t : ServerTypeResponse) : (formatServerType loc fmt t).kind = none := rfl

theorem mem_filteredTypes_price {ts : List ServerTypeResponse} {l : String}
    {t : ServerTypeResponse} (hl : l ≠ "") (ht : t ∈ filteredTypes (some l) ts) :
    (t.prices.any fun p => p.location == l) = true := by
  simp only [filteredTypes] at ht
  rw [if_pos hl] at ht
  exact (List.mem_filter.mp ht).2

theorem priceLabel_ne_empty {ts : List ServerTypeResponse} {l : String}
    (fmt : String → String) {t : ServerTypeResponse} (hl : l ≠ "")
    (ht : t ∈ filteredTypes (some l) ts) : priceLabel (some l) fmt t ≠ "" := by
  obtain ⟨p, hp, hloc⟩ := List.any_eq_true.mp (mem_filteredTypes_price hl ht)
  have hfind : (t.prices.find? fun p => p.location == l).isSome :=
    List.find?_isSome.mpr ⟨p, hp, hloc⟩
  obtain ⟨q, hq⟩ := Option.isSome_iff_exists.mp hfind
  simp only [priceLabel]
  rw [if_pos hl, hq]
  intro hcon
  have hlen := congrArg String.length hcon
  rw [String.length_append, String.length_append] at hlen
  have h1 : ("€" : String).length = 1 := rfl
  have h2 : ("/mo, " : String).length = 5 := rfl
  have h0 : ("" : String).length = 0 := rfl
  omega

theorem nodup_names_dedicated {loc : Option String} {ts : List ServerTypeResponse}
    (h : ((filteredTypes loc ts).map (fun t => t.name)).Nodup) :
    ((dedicatedSorted loc ts).map (fun t => t.name)).Nodup := by
  have hperm : ((dedicatedSorted loc ts).map (fun t => t.name)).Perm
      (((filteredTypes loc ts).filter fun t => t.cpuType == "dedicated").map
        fun t => t.name) :=
    (List.perm_insertionSort typeNameLe _).map _
  rw [hperm.nodup_iff]
  exact List.Nodup.sublist ((List.filter_sublist _).map _) h

theorem nodup_names_shared {loc : Option String} {ts : List ServerTypeResponse}
    (h : ((filteredTypes loc ts).map (fun t => t.name)).Nodup) :
    ((sharedSorted loc ts).map (fun t => t.name)).Nodup := by
  have hperm : ((sharedSorted loc ts).map (fun t => t.name)).Perm
      (((filteredTypes loc ts).filter fun t => t.cpuType == "shared").map
        fun t => t.name) :=
    (List.perm_insertionSort typeNameLe _).map _
  rw [hperm.nodup_iff]
  exact List.Nodup.sublist ((List.filter_sublist _).map _) h

theorem names_disjoint_classes {loc : Option String} {ts : List ServerTypeResponse}
    (h : ((filteredTypes loc ts).map (fun t => t.name)).Nodup)
    {t u : ServerTypeResponse} (htd : t ∈ dedicatedSorted loc ts)
    (hus : u ∈ sharedSorted loc ts) : t.name ≠ u.name := by
  obtain ⟨htf, htc⟩ := mem_dedicatedSorted.mp htd
  obtain ⟨huf, huc⟩ := mem_sharedSorted.mp hus
  intro heq
  have hteq : t = u := List.inj_on_of_nodup_map h htf huf heq
  subst hteq
  have h1 : t.cpuType = "dedicated" := by simpa using htc
  have h2 : t.cpuType = "shared" := by simpa using huc
  rw [h1] at h2
  exact absurd h2 (by decide)

theorem mem_names_dedicated {loc : Option String} {ts : List ServerTypeResponse}
    {t : ServerTypeResponse} (ht : t ∈ dedicatedSorted loc ts) :
    t.name ∈ (filteredTypes loc ts).map (fun t => t.name) :=
  List.mem_map_of_mem _ (mem_dedicatedSorted.mp ht).1

theorem mem_names_shared {loc : Option String} {ts : List ServerTypeResponse}
    {t : ServerTypeResponse} (ht : t ∈ sharedSorted loc ts) :
    t.name ∈ (filteredTypes loc ts).map (fun t => t.name) :=
  List.mem_map_of_mem _ (mem_sharedSorted.mp ht).1

theorem serverTypeOptions_sublist (loc : Option String) (fmt : String → String)
    (ts : List ServerTypeResponse) :
    (serverTypeOptions loc fmt ts).Sublist
      (dedicatedHeader :: (dedicatedSorted loc ts).map (formatServerType loc fmt) ++
        sharedHeader :: (sharedSorted loc ts).map (formatServerType loc fmt)) := by
  by_cases hts : ts.length = 0
  · simp [serverTypeOptions, hts]
  · simp only [serverTypeOptions, if_neg hts]
    by_cases hd : (dedicatedSorted loc ts).length > 0
    · by_cases hs : (sharedSorted loc ts).length > 0
      · rw [if_pos hd, if_pos hs, if_pos hd]
        exact List.Sublist.refl _
      · rw [if_pos hd, if_neg hs]
        simp only [List.append_nil]
        exact List.sublist_append_left _ _
    · by_cases hs : (sharedSorted loc ts).length > 0
      · rw [if_neg hd, if_pos hs, if_neg hd]
        have hD : dedicatedSorted loc ts = [] := List.length_eq_zero.mp (by omega)
        rw [hD]
        simp only [List.map_nil, List.nil_append, List.cons_append]
        exact (List.sublist_cons_self _ _).cons _
      · rw [if_neg hd, if_neg hs]
        simp

/-! ### Claims -/

/-- C2: for every valid internal state, `updateValue` encodes
`disablePublic = true, disablePublicIpv4 = false, disablePublicIpv6 = false`
whenever `disablePublicNetwork` is truthy — regardless of the internal
protocol flags — and encodes `disablePublic = false` with both protocol
flags copied through unchanged otherwise. -/
theorem C2_disable_public_precedence (c : ServerConfiguration) (ext : ExternalRecord)
    (hvalid : isValidConfig c = true) :
    (truthyBool c.disablePublicNetwork = true →
      (updateValue (isValidConfig c) c ext).disablePublic = some true ∧
      (updateValue (isValidConfig c) c ext).disablePublicIpv4 = some false ∧
      (updateValue (isValidConfig c) c ext).disablePublicIpv6 = some false) ∧
    (truthyBool c.disablePublicNetwork = false →
      (updateValue (isValidConfig c) c ext).disablePublic = some false ∧
      (updateValue (isValidConfig c) c ext).disablePublicIpv4 = c.disablePublicIpv4 ∧
      (updateValue (isValidConfig c) c ext).disablePublicIpv6 = c.disablePublicIpv6) := by
  simp only [updateValue, hvalid, if_true]
  constructor <;> intro h <;> simp [encodeConfig, h]

/-- Witness for C2 at a concrete valid state with internal
`disablePublicIpv4 = disablePublicIpv6 = true`. -/
theorem C2_disable_public_precedence_witness :
    (updateValue (isValidConfig sampleValidDP) sampleValidDP sampleExt).disablePublic =
        some true ∧
      (updateValue (isValidConfig sampleValidDP) sampleValidDP sampleExt).disablePublicIpv4 =
        some false ∧
      (updateValue (isValidConfig sampleValidDP) sampleValidDP sampleExt).disablePublicIpv6 =
        some false :=
  (C2_disable_public_precedence sampleValidDP sampleExt (by decide)).1 (by decide)

/-- C3 counterexample: a state whose image id is `0` is "set" in the
claim's literal sense (all three id fields present, no disable flag set, no
private network), so the claim calls it valid, but the code's truthiness
test `!newValue.serverImage` makes the computed validity false. -/
theorem C3_counterexample :
    specValidLiteral
        ⟨some false, some false, some false, some false, none, some [], some [], none,
          some 0, some "cx22", some "fsn1", none, some []⟩ = true ∧
      isValidConfig
        ⟨some false, some false, some false, some false, none, some [], some [], none,
          some 0, some "cx22", some "fsn1", none, some []⟩ = false := by
  decide

/-- C3 (amended): the computed validity signal is true iff (a) instance
type, image and location are all JS-truthy (present, and not `""` or `0`),
(b) any truthy disable flag forces use-private-network to be truthy, and
(c) a truthy use-private-network forces a non-empty network id list. -/
theorem C3_validity_iff (c : ServerConfiguration) :
    isValidConfig c = true ↔
      ((truthyInt c.serverImage = true ∧ truthyStr c.serverType = true ∧
        truthyStr c.serverLocation = true) ∧
       ((truthyBool c.disablePublicNetwork = true ∨ truthyBool c.disablePublicIpv4 = true ∨
         truthyBool c.disablePublicIpv6 = true) → truthyBool c.usePrivateNetwork = true) ∧
       (truthyBool c.usePrivateNetwork = true → truthyLen c.networkIds = true)) := by
  have key : ∀ bi bt bl bdpn b4 b6 bupn bn : Bool,
      (let valid := true
       let valid := if !bi || !bt || !bl then false else valid
       let valid := if (bdpn || b4 || b6) && !bupn then false else valid
       let valid := if bupn && !bn then false else valid
       valid) = true ↔
        ((bi = true ∧ bt = true ∧ bl = true) ∧
         ((bdpn = true ∨ b4 = true ∨ b6 = true) → bupn = true) ∧
         (bupn = true → bn = true)) := by decide
  exact key (truthyInt c.serverImage) (truthyStr c.serverType) (truthyStr c.serverLocation)
    (truthyBool c.disablePublicNetwork) (truthyBool c.disablePublicIpv4)
    (truthyBool c.disablePublicIpv6) (truthyBool c.usePrivateNetwork)
    (truthyLen c.networkIds)

/-- Witness for C3 (amended) at a concrete state satisfying the three
truthy conditions. -/
theorem C3_validity_iff_witness : isValidConfig sampleValidNoDP = true :=
  (C3_validity_iff sampleValidNoDP).mpr (by decide)

/-- C5: after a location change the reconciler installs the instance-type
catalog refetched with the new location filter; the selection is cleared
when its value occurs nowhere in the refreshed option list (in particular
when that list is empty) and kept unchanged when it does occur. -/
theorem C5_dependent_invalidation (types : List ServerTypeResponse)
    (newLocation : Option String) (fmt : String → String) (sel : Option String) :
    ((∀ o ∈ serverTypeOptions newLocation fmt types, valueEqSelected o.value sel = false) →
      locationChangeStep types newLocation fmt sel = none) ∧
    ((∃ o ∈ serverTypeOptions newLocation fmt types, valueEqSelected o.value sel = true) →
      locationChangeStep types newLocation fmt sel = sel) := by
  constructor
  · intro h
    have hany : (serverTypeOptions newLocation fmt types).any
        (fun o => valueEqSelected o.value sel) = false :=
      List.any_eq_false.mpr fun x hx => by simp [h x hx]
    simp [locationChangeStep, locationChangeApply, hany]
  · intro h
    have hany : (serverTypeOptions newLocation fmt types).any
        (fun o => valueEqSelected o.value sel) = true :=
      List.any_eq_true.mpr h
    simp [locationChangeStep, locationChangeApply, hany]

/-- Witness for C5: a type priced only in `nbg1` disappears from the
`fsn1`-filtered refetch, so the selection is cleared. -/
theorem C5_dependent_invalidation_witness :
    locationChangeStep
        [⟨"cx22", false, "x86", 2, 4, 40, "shared", [⟨"nbg1", "3.29"⟩]⟩]
        (some "fsn1") (fun _ => "") (some "cx22") = none :=
  (C5_dependent_invalidation
      [⟨"cx22", false, "x86", 2, 4, 40, "shared", [⟨"nbg1", "3.29"⟩]⟩]
      (some "fsn1") (fun _ => "") (some "cx22")).1 (by decide)

/-- C6: a complete inbound sync transaction never performs an outbound
write (the external record ends exactly equal to the externally supplied
value, and `syncingToProps` is never raised), even though the derivation
mutates the internal state and re-runs validation; symmetrically, while
`syncingToProps` is raised by an outbound write, the inbound path leaves
the internal state untouched. -/
theorem C6_sync_mutual_exclusion (st : ComponentState) (newExt : ExternalRecord) :
    (st.syncingToProps = false →
      (inboundSyncRun newExt st).extRecord = newExt ∧
      (inboundSyncRun newExt st).config = deriveConfig newExt ∧
      (inboundSyncRun newExt st).syncingFromProps = false ∧
      (inboundSyncRun newExt st).syncingToProps = false) ∧
    (st.syncingToProps = true →
      inboundSyncRun newExt st = { st with extRecord := newExt }) ∧
    (st.isValid = true →
      (inboundSyncRun newExt (updateValueBody st)).config = (updateValueBody st).config) := by
  refine ⟨fun h => ?_, fun h => ?_, fun h => ?_⟩
  · simp [inboundSyncRun, validationRun, h]
  · simp [inboundSyncRun, h]
  · simp [inboundSyncRun, updateValueBody, h]

/-- Witness for C6 at a concrete quiescent state and external record. -/
theorem C6_sync_mutual_exclusion_witness :
    (inboundSyncRun sampleExt sampleState).extRecord = sampleExt ∧
      (inboundSyncRun sampleExt sampleState).config = deriveConfig sampleExt ∧
      (inboundSyncRun sampleExt sampleState).syncingFromProps = false ∧
      (inboundSyncRun sampleExt sampleState).syncingToProps = false :=
  (C6_sync_mutual_exclusion sampleState sampleExt).1 (by decide)

/-- C8: no fetch operation ever propagates an error.  Whenever the
pagination loop ends in a thrown request error — in particular when the
first request suffers a network failure, a non-2xx status (including 401),
or an unparsable body — `getLocations` and `getServerTypes` return the
empty option list instead. -/
theorem C8_fetch_never_throws :
    (∀ (t : Nat → Except Unit (PageResp LocationResponse)) (fuel : Nat) (e : Unit),
      paginate t fuel 1 = some (.error e) → getLocations t fuel = some []) ∧
    (∀ (t : Nat → Except Unit (PageResp ServerTypeResponse)) (fuel : Nat)
      (loc : Option String) (fmt : String → String) (e : Unit),
      paginate t fuel 1 = some (.error e) → getServerTypes t fuel loc fmt = some []) ∧
    (∀ (os : Nat → HttpOutcome LocationResponse) (fuel : Nat), 1 ≤ fuel →
      (∃ e, request (os 1) = .error e) →
      getLocations (fun p => request (os p)) fuel = some []) ∧
    (request (α := LocationResponse) .networkError = .error ()) ∧
    (∀ (st : Nat) (body : Option (PageResp LocationResponse)), ¬(200 ≤ st ∧ st ≤ 299) →
      request (.response st body) = .error ()) ∧
    (∀ st : Nat, 200 ≤ st → st ≤ 299 →
      request (α := LocationResponse) (.response st none) = .error ()) := by
  refine ⟨fun t fuel e h => ?_, fun t fuel loc fmt e h => ?_,
    fun os fuel hf he => ?_, rfl, fun st body h => ?_, fun st h1 h2 => ?_⟩
  · simp [getLocations, h]
  · simp [getServerTypes, h]
  · obtain ⟨e, he⟩ := he
    cases fuel with
    | zero => omega
    | succ f => simp [getLocations, paginate, he]
  · simp [request, h]
  · simp only [request]
    rw [if_pos (⟨h1, h2⟩ : 200 ≤ st ∧ st ≤ 299)]

/-- Witness for C8: an authentication rejection (HTTP 401) on the first
page yields the empty option list. -/
theorem C8_fetch_never_throws_witness :
    getLocations (fun p => request ((fun _ => HttpOutcome.response 401 none) p)) 2 =
      some [] :=
  C8_fetch_never_throws.2.2.1 (fun _ => .response 401 none) 2 (by omega) ⟨(), rfl⟩

/-- C4 counterexample: take the two-page transport whose page 1 holds the
location `loc1`, page 2 holds `loc2`, and `last_page = 2`.  The paginated
loop accumulates both pages, but the duplicate aggregator in
`src/unnamed/part_001` issues a single unpaginated request, sees only the
first page body, and returns exactly the first page's options — so the
claim, read over that cited implementation, fails: the caller does receive
only page 1's items although N = 2. -/
theorem C4_counterexample :
    paginate (pagesTransport
        [[(⟨"loc1", "c1", "DE", "z"⟩ : LocationResponse)], [⟨"loc2", "c2", "DE", "z"⟩]]) 3 1 =
      some (.ok [⟨"loc1", "c1", "DE", "z"⟩, ⟨"loc2", "c2", "DE", "z"⟩]) ∧
    getLocationsSingle (.ok (some [⟨"loc1", "c1", "DE", "z"⟩])) =
      locationOptions [⟨"loc1", "c1", "DE", "z"⟩] ∧
    getLocationsSingle (.ok (some [⟨"loc1", "c1", "DE", "z"⟩])) ≠
      locationOptions [⟨"loc1", "c1", "DE", "z"⟩, ⟨"loc2", "c2", "DE", "z"⟩] := by
  decide

/-- C4 (amended, for the paginated aggregator of
`src/pkg/hetzner-node-driver/hcloud.ts`): against a transport serving `N`
non-empty pages with `last_page = N`, the accumulation loop returns the
concatenation of all `N` pages in page order, and for `N > 1` the result is
never just the first page. -/
theorem C4_pagination_exhaustive {α : Type} (pages : List (List α)) (fuel : Nat)
    (hne : ∀ pg ∈ pages, pg ≠ []) (hfuel : pages.length + 1 ≤ fuel) :
    paginate (pagesTransport pages) fuel 1 = some (.ok pages.flatten) ∧
    (1 < pages.length →
      paginate (pagesTransport pages) fuel 1 ≠ some (.ok (pages.headD []))) := by
  have hmain : paginate (pagesTransport pages) fuel 1 = some (.ok pages.flatten) := by
    cases pages with
    | nil =>
      cases fuel with
      | zero => omega
      | succ f => simp [paginate, pagesTransport, continuePaging]
    | cons p ps =>
      have hlen : (p :: ps).length - 0 ≤ fuel := by
        simpa using Nat.le_of_succ_le hfuel
      simpa using paginate_pagesTransport (p :: ps) hne fuel 0 (by simp) hlen
  refine ⟨hmain, fun hlen heq => ?_⟩
  rw [hmain] at heq
  have hflat : pages.flatten = pages.headD [] := by simpa using heq
  rcases pages with _ | ⟨p1, ps⟩
  · simp at hlen
  rcases ps with _ | ⟨p2, rest⟩
  · simp at hlen
  simp only [List.headD_cons, List.flatten_cons] at hflat
  have hnil2 : (p2 :: rest).flatten = [] := by
    have hl : p1.length + (p2 :: rest).flatten.length = p1.length := by
      have hc := congrArg List.length hflat
      simpa [List.length_append] using hc
    have hz : (p2 :: rest).flatten.length = 0 := by omega
    exact List.length_eq_zero.mp hz
  exact hne p2 (by simp) (List.flatten_eq_nil_iff.mp hnil2 p2 (by simp))

/-- Witness for C4 (amended): two non-empty pages, both accumulated. -/
theorem C4_pagination_exhaustive_witness :
    paginate (pagesTransport [[1], [2]]) 3 1 = some (.ok ([1, 2] : List Nat)) := by
  have h := (C4_pagination_exhaustive [[1], [2]] 3 (by decide) (by decide)).1
  simpa using h

/-- C1 counterexample: a valid state in the claim's own highlighted
scenario — `disablePublicNetwork = true` together with
`disablePublicIpv4 = true` — does not survive the round trip: outbound
sync forces the encoded `disablePublicIpv4` to `false`, so inbound
re-derivation yields `some false` where the original held `some true`. -/
theorem C1_counterexample :
    isValidConfig
        ⟨some true, some true, some false, some true, none, some [], some [1], none,
          some 1, some "cx22", some "fsn1", some "", some []⟩ = true ∧
      deriveConfig (encodeConfig
        ⟨some true, some true, some false, some true, none, some [], some [1], none,
          some 1, some "cx22", some "fsn1", some "", some []⟩) ≠
        ⟨some true, some true, some false, some true, none, some [], some [1], none,
          some 1, some "cx22", some "fsn1", some "", some []⟩ := by
  decide

/-- C1 (amended): the outbound/inbound round trip is the identity on every
valid state in which, additionally, the fields the decode side normalises
are present (`additionalUserData`, `networkIds`, `firewallIds`,
`serverLabels`, `disablePublicNetwork`), a truthy `disablePublicNetwork`
comes with both protocol flags already `some false` (outbound forces them
to `false`), label keys are distinct for `Object.fromEntries`, and neither
label keys nor values contain `=` (JS `split` cuts at every `=`).  The
encoded record always carries `userDataFromFile = true`. -/
theorem C1_roundtrip (c : ServerConfiguration)
    (hvalid : isValidConfig c = true)
    (hud : c.additionalUserData.isSome = true)
    (hnet : c.networkIds.isSome = true)
    (hfw : c.firewallIds.isSome = true)
    (hlab : c.serverLabels.isSome = true)
    (hdpn : c.disablePublicNetwork.isSome = true)
    (hforce : truthyBool c.disablePublicNetwork = true →
      c.disablePublicIpv4 = some false ∧ c.disablePublicIpv6 = some false)
    (hkeys : ((c.serverLabels.getD []).map Prod.fst).Nodup)
    (hchars : ∀ kv ∈ c.serverLabels.getD [], '=' ∉ kv.1.data ∧ '=' ∉ kv.2.data) :
    deriveConfig (encodeConfig c) = c ∧
      (encodeConfig c).userDataFromFile = some true := by
  obtain ⟨dpn, dp4, dp6, upn, ssh, fw, net, pg, img, typ, loc, aud, labs⟩ := c
  rcases aud with _ | u
  · simp at hud
  rcases net with _ | nlist
  · simp at hnet
  rcases fw with _ | flist
  · simp at hfw
  rcases labs with _ | m
  · simp at hlab
  rcases dpn with _ | bdpn
  · simp at hdpn
  refine ⟨?_, rfl⟩
  simp only [Option.getD_some] at hkeys hchars
  cases bdpn with
  | true =>
    obtain ⟨h4, h6⟩ := hforce rfl
    simp only at h4 h6
    subst h4 h6
    simp [deriveConfig, encodeConfig, truthyBool, optStr_roundtrip, optNum_roundtrip,
      listNum_roundtrip, labels_roundtrip m hkeys hchars]
  | false =>
    simp [deriveConfig, encodeConfig, truthyBool, optStr_roundtrip, optNum_roundtrip,
      listNum_roundtrip, labels_roundtrip m hkeys hchars]

/-- Witness for C1 (amended) at a concrete valid state satisfying the added
hypotheses. -/
theorem C1_roundtrip_witness :
    deriveConfig (encodeConfig sampleValidNoDP) = sampleValidNoDP ∧
      (encodeConfig sampleValidNoDP).userDataFromFile = some true :=
  C1_roundtrip sampleValidNoDP (by decide) (by decide) (by decide) (by decide)
    (by decide) (by decide) (by decide) (by decide) (by decide)

/-- C7: every instance-type result list has disabled group headers only,
emits the dedicated header exactly when the dedicated class is non-empty,
emits the shared header exactly when both classes are non-empty, places all
dedicated entries (after their header) before all shared entries when both
classes are non-empty, and keeps each class sorted by name. -/
theorem C7_grouping (ts : List ServerTypeResponse) (loc : Option String)
    (fmt : String → String) :
    (∀ o ∈ serverTypeOptions loc fmt ts, o.kind = some "group" → o.disabled = some true) ∧
    (dedicatedHeader ∈ serverTypeOptions loc fmt ts ↔ dedicatedSorted loc ts ≠ []) ∧
    (sharedHeader ∈ serverTypeOptions loc fmt ts ↔
      (dedicatedSorted loc ts ≠ [] ∧ sharedSorted loc ts ≠ [])) ∧
    (dedicatedSorted loc ts ≠ [] → sharedSorted loc ts ≠ [] →
      serverTypeOptions loc fmt ts =
        dedicatedHeader :: (dedicatedSorted loc ts).map (formatServerType loc fmt) ++
          sharedHeader :: (sharedSorted loc ts).map (formatServerType loc fmt)) ∧
    ((dedicatedSorted loc ts).map (fun t => t.name)).Pairwise strLe ∧
    ((sharedSorted loc ts).map (fun t => t.name)).Pairwise strLe := by
  refine ⟨?_, ?_, ?_, ?_, ?_, ?_⟩
  · intro o ho hk
    rcases mem_serverTypeOptions.mp ho with ⟨rfl, _⟩ | ⟨t, ht, rfl⟩ | ⟨rfl, _, _⟩ | ⟨t, ht, rfl⟩
    · rfl
    · simp [formatServerType_kind] at hk
    · rfl
    · simp [formatServerType_kind] at hk
  · constructor
    · intro h
      rcases mem_serverTypeOptions.mp h with ⟨_, hD⟩ | ⟨t, ht, heq⟩ | ⟨habs, _, _⟩ |
        ⟨t, ht, heq⟩
      · exact hD
      · have hck := congrArg HetznerOption.kind heq
        simp [formatServerType_kind, dedicatedHeader] at hck
      · exact absurd habs (by decide)
      · have hck := congrArg HetznerOption.kind heq
        simp [formatServerType_kind, dedicatedHeader] at hck
    · intro hD
      exact mem_serverTypeOptions.mpr (Or.inl ⟨rfl, hD⟩)
  · constructor
    · intro h
      rcases mem_serverTypeOptions.mp h with ⟨habs, _⟩ | ⟨t, ht, heq⟩ | ⟨_, hD, hS⟩ |
        ⟨t, ht, heq⟩
      · exact absurd habs (by decide)
      · have hck := congrArg HetznerOption.kind heq
        simp [formatServerType_kind, sharedHeader] at hck
      · exact ⟨hD, hS⟩
      · have hck := congrArg HetznerOption.kind heq
        simp [formatServerType_kind, sharedHeader] at hck
    · intro hDS
      exact mem_serverTypeOptions.mpr (Or.inr (Or.inr (Or.inl ⟨rfl, hDS.1, hDS.2⟩)))
  · intro hD hS
    have hts : ¬ts.length = 0 := by
      intro h0
      have h0' := List.length_eq_zero.mp h0
      subst h0'
      exact hD (dedicatedSorted_nil loc)
    simp only [serverTypeOptions, if_neg hts]
    rw [if_pos (List.length_pos.mpr hD), if_pos (List.length_pos.mpr hS),
      if_pos (List.length_pos.mpr hD)]
    simp
  · exact List.pairwise_map.mpr (List.sorted_insertionSort typeNameLe _)
  · exact List.pairwise_map.mpr (List.sorted_insertionSort typeNameLe _)

/-- Witness for C7 at a concrete fetch result with one dedicated and one
shared type. -/
theorem C7_grouping_witness :
    serverTypeOptions (some "fsn1") (fun s => s)
        [⟨"cx22", false, "x86", 2, 4, 40, "shared", [⟨"fsn1", "3.29"⟩]⟩,
         ⟨"ccx13", false, "x86", 2, 8, 80, "dedicated", [⟨"fsn1", "12.49"⟩]⟩] =
      dedicatedHeader ::
        (dedicatedSorted (some "fsn1")
          [⟨"cx22", false, "x86", 2, 4, 40, "shared", [⟨"fsn1", "3.29"⟩]⟩,
           ⟨"ccx13", false, "x86", 2, 8, 80, "dedicated", [⟨"fsn1", "12.49"⟩]⟩]).map
          (formatServerType (some "fsn1") (fun s => s)) ++
        sharedHeader ::
          (sharedSorted (some "fsn1")
            [⟨"cx22", false, "x86", 2, 4, 40, "shared", [⟨"fsn1", "3.29"⟩]⟩,
             ⟨"ccx13", false, "x86", 2, 8, 80, "dedicated", [⟨"fsn1", "12.49"⟩]⟩]).map
            (formatServerType (some "fsn1") (fun s => s)) :=
  ((C7_grouping
      [⟨"cx22", false, "x86", 2, 4, 40, "shared", [⟨"fsn1", "3.29"⟩]⟩,
       ⟨"ccx13", false, "x86", 2, 8, 80, "dedicated", [⟨"fsn1", "12.49"⟩]⟩]
      (some "fsn1") (fun s => s)).2.2.2.1) (by decide) (by decide)

/-- C10: with a (truthy) location filter, every non-header option in the
server-type result is the formatting of a type that survived the price
filter, and its price label is non-empty — the no-price branch of
`formatServerType` is unreachable for filtered results. -/
theorem C10_filtered_price (ts : List ServerTypeResponse) (l : String)
    (fmt : String → String) (o : HetznerOption) (hl : l ≠ "")
    (ho : o ∈ serverTypeOptions (some l) fmt ts) (hknd : o.kind ≠ some "group") :
    ∃ t ∈ filteredTypes (some l) ts, formatServerType (some l) fmt t = o ∧
      priceLabel (some l) fmt t ≠ "" := by
  rcases mem_serverTypeOptions.mp ho with ⟨rfl, _⟩ | ⟨t, ht, rfl⟩ | ⟨rfl, _, _⟩ | ⟨t, ht, rfl⟩
  · exact absurd rfl hknd
  · have htf := (mem_dedicatedSorted.mp ht).1
    exact ⟨t, htf, rfl, priceLabel_ne_empty fmt hl htf⟩
  · exact absurd rfl hknd
  · have htf := (mem_sharedSorted.mp ht).1
    exact ⟨t, htf, rfl, priceLabel_ne_empty fmt hl htf⟩

/-- Witness for C10 at a concrete filtered fetch. -/
theorem C10_filtered_price_witness :
    ∃ t ∈ filteredTypes (some "fsn1")
        [⟨"cx22", false, "x86", 2, 4, 40, "shared", [⟨"fsn1", "3.29"⟩]⟩],
      formatServerType (some "fsn1") (fun s => s) t =
          formatServerType (some "fsn1") (fun s => s)
            ⟨"cx22", false, "x86", 2, 4, 40, "shared", [⟨"fsn1", "3.29"⟩]⟩ ∧
        priceLabel (some "fsn1") (fun s => s) t ≠ "" :=
  C10_filtered_price
    [⟨"cx22", false, "x86", 2, 4, 40, "shared", [⟨"fsn1", "3.29"⟩]⟩] "fsn1"
    (fun s => s)
    (formatServerType (some "fsn1") (fun s => s)
      ⟨"cx22", false, "x86", 2, 4, 40, "shared", [⟨"fsn1", "3.29"⟩]⟩)
    (by decide) (by decide) (by decide)

/-- C9 counterexample: the aggregator performs no deduplication, so a
transport whose single page holds two locations with the same name yields
an option list in which the value `"aaa"` occurs twice — value uniqueness
fails for that returned list. -/
theorem C9_counterexample :
    getLocations
        (pagesTransport [[⟨"aaa", "c1", "DE", "z"⟩, ⟨"aaa", "c2", "FI", "z"⟩]]) 2 =
      some (locationOptions [⟨"aaa", "c1", "DE", "z"⟩, ⟨"aaa", "c2", "FI", "z"⟩]) ∧
    ¬((locationOptions [⟨"aaa", "c1", "DE", "z"⟩, ⟨"aaa", "c2", "FI", "z"⟩]).map
        (fun o => o.value)).Nodup := by
  decide

/-- C9 (amended): the aggregator preserves, but does not create, value
uniqueness.  If the accumulated location names are pairwise distinct, the
location option values are pairwise distinct; if the filtered server-type
names are pairwise distinct and no type is named after a header sentinel,
the server-type option values (headers included) are pairwise distinct; and
every group-header entry is disabled. -/
theorem C9_value_uniqueness :
    (∀ locs : List LocationResponse, ((locs.map fun l => l.name).Nodup) →
      ((locationOptions locs).map fun o => o.value).Nodup) ∧
    (∀ (ts : List ServerTypeResponse) (loc : Option String) (fmt : String → String),
      (((filteredTypes loc ts).map fun t => t.name).Nodup) →
      "dedicated-header" ∉ (filteredTypes loc ts).map (fun t => t.name) →
      "shared-header" ∉ (filteredTypes loc ts).map (fun t => t.name) →
      ((serverTypeOptions loc fmt ts).map fun o => o.value).Nodup) ∧
    (∀ (ts : List ServerTypeResponse) (loc : Option String) (fmt : String → String)
      (o : HetznerOption), o ∈ serverTypeOptions loc fmt ts →
      o.kind = some "group" → o.disabled = some true) := by
  have hinj : Function.Injective OValue.str := fun a b hab => by injection hab
  refine ⟨?_, ?_, ?_⟩
  · intro locs h
    have hval : (locationOptions locs).map (fun o => o.value) =
        ((locs.insertionSort locLe).map fun l => l.name).map OValue.str := by
      simp only [locationOptions, List.map_map]
      exact List.map_congr_left fun a _ => rfl
    rw [hval]
    have hnames : ((locs.insertionSort locLe).map fun l => l.name).Nodup :=
      (((List.perm_insertionSort locLe locs).map fun l => l.name).nodup_iff).mpr h
    exact List.Nodup.map hinj hnames
  · intro ts loc fmt hnames hd hs
    have hsub : ((serverTypeOptions loc fmt ts).map fun o => o.value).Sublist
        ((dedicatedHeader :: (dedicatedSorted loc ts).map (formatServerType loc fmt) ++
          sharedHeader :: (sharedSorted loc ts).map (formatServerType loc fmt)).map
            fun o => o.value) :=
      (serverTypeOptions_sublist loc fmt ts).map _
    refine List.Nodup.sublist hsub ?_
    have hvfmt : ∀ t : ServerTypeResponse,
        ((fun o => o.value) ∘ formatServerType loc fmt) t = OValue.str t.name :=
      fun t => rfl
    simp only [List.map_cons, List.map_append, List.map_map,
      List.map_congr_left fun a _ => hvfmt a]
    have hDnames := nodup_names_dedicated hnames
    have hSnames := nodup_names_shared hnames
    refine List.nodup_append.mpr ⟨?_, ?_, ?_⟩
    · rw [List.nodup_cons]
      constructor
      · simp only [List.mem_map]
        rintro ⟨t, ht, heq⟩
        have hn : t.name = "dedicated-header" :=
          hinj (show OValue.str t.name = OValue.str "dedicated-header" from heq)
        exact hd (hn ▸ mem_names_dedicated ht)
      · rw [show ((dedicatedSorted loc ts).map fun a => OValue.str a.name) =
            ((dedicatedSorted loc ts).map fun t => t.name).map OValue.str by
          rw [List.map_map]; rfl]
        exact List.Nodup.map hinj hDnames
    · rw [List.nodup_cons]
      constructor
      · simp only [List.mem_map]
        rintro ⟨t, ht, heq⟩
        have hn : t.name = "shared-header" :=
          hinj (show OValue.str t.name = OValue.str "shared-header" from heq)
        exact hs (hn ▸ mem_names_shared ht)
      · rw [show ((sharedSorted loc ts).map fun a => OValue.str a.name) =
            ((sharedSorted loc ts).map fun t => t.name).map OValue.str by
          rw [List.map_map]; rfl]
        exact List.Nodup.map hinj hSnames
    · intro v hv1 hv2
      rcases List.mem_cons.mp hv1 with rfl | hv1'
      · rcases List.mem_cons.mp hv2 with heq2 | hv2'
        · exact absurd heq2 (by decide)
        · simp only [List.mem_map] at hv2'
          obtain ⟨u, hu, hueq⟩ := hv2'
          have hn : u.name = "dedicated-header" :=
            hinj (show OValue.str u.name = OValue.str "dedicated-header" from hueq)
          exact hd (hn ▸ mem_names_shared hu)
      · simp only [List.mem_map] at hv1'
        obtain ⟨t, ht, hteq⟩ := hv1'
        rcases List.mem_cons.mp hv2 with heq2 | hv2'
        · have hn : t.name = "shared-header" :=
            hinj (show OValue.str t.name = OValue.str "shared-header" from
              hteq.trans heq2)
          exact hs (hn ▸ mem_names_dedicated ht)
        · simp only [List.mem_map] at hv2'
          obtain ⟨u, hu, hueq⟩ := hv2'
          have hn : t.name = u.name := hinj (hteq.trans hueq.symm)
          exact names_disjoint_classes hnames ht hu hn
  · intro ts loc fmt o ho hk
    rcases mem_serverTypeOptions.mp ho with ⟨rfl, _⟩ | ⟨t, ht, rfl⟩ | ⟨rfl, _, _⟩ |
      ⟨t, ht, rfl⟩
    · rfl
    · simp [formatServerType_kind] at hk
    · rfl
    · simp [formatServerType_kind] at hk

/-- Witness for C9 (amended) at concrete distinct-name inputs. -/
theorem C9_value_uniqueness_witness :
    ((locationOptions [⟨"fsn1", "Falkenstein", "DE", "eu-central"⟩,
        ⟨"hel1", "Helsinki", "FI", "eu-central"⟩]).map fun o => o.value).Nodup :=
  C9_value_uniqueness.1
    [⟨"fsn1", "Falkenstein", "DE", "eu-central"⟩, ⟨"hel1", "Helsinki", "FI", "eu-central"⟩]
    (by decide)

end HetznerDriver
